import Mathlib

/-!
# Verification of `sparse_rec_condatvu`

A shallow embedding of the reconstruction entry point
`sparse_rec_condatvu` from
`src/pisap/plugins/mri/dictionary_learning/reconstruct.py`.

Modelling choices:

* Scalars are rationals; a complex array entry is a pair of rationals
  (real part, imaginary part); arrays are flattened lists of entries.
* External collaborators (gradient operator, linear operator, the
  `sf_tools` primitives `sigma_mad`, `cwbReweight`, `Threshold`, and the
  `pisap` reweighting object `mReweight` whose sources are not part of
  this development) are abstract parameters bundled in `ExtOps`.
* The delegated optimizer object (`Condat`) is not part of this
  repository's sources.  Modelled from the spec: its state is the
  primal/dual pair, `update` is one deterministic step of the
  primal-dual rule (parametrized here by the run configuration and the
  currently installed dual-proximity weights, which are everything the
  step may read), `iterate(max_iter)` repeats the very same update,
  termination is purely iteration-count bounded, and the pair is mutated
  in place, never reallocated (spec section 4.3).
* The run additionally produces a trace of observable events: array
  allocations, optimizer updates, reweighting calls, weight
  installations, the final coefficient store, and verbosity-gated
  progress prints.
-/

namespace PisapCondatVu

/-- A complex scalar: real and imaginary part, as rationals. -/
abbrev Cx : Type := ℚ × ℚ

/-- The complex zero. -/
def Cx.zero : Cx := (0, 0)

/-- Embedding of a real scalar into a complex array entry (numpy
broadcasts a real fill value over a complex array). -/
def Cx.ofReal (q : ℚ) : Cx := (q, 0)

/-- A dense array, flattened. -/
abbrev Arr : Type := List Cx

/-- The optimizer's primal/dual pair `(x, y)`. -/
abbrev OptPair : Type := Arr × Arr

/-- `a[...] = c`: in-place constant fill, preserving the shape. -/
def fillConst (a : Arr) (c : Cx) : Arr := a.map (fun _ => c)

/-- Observable events of one reconstruction call. -/
inductive Ev : Type where
  | alloc (n : ℕ)
  | eprint
  | reweight (data : Arr)
  | installW (w : Arr)
  | update
  | setCoeff (c : Arr)
  deriving DecidableEq

/-- Is this event an optimizer update? -/
def Ev.isUpdate : Ev → Bool
  | .update => true
  | _ => false

/-- Is this event an array allocation? -/
def Ev.isAlloc : Ev → Bool
  | .alloc _ => true
  | _ => false

/-- The verbosity-gated progress prints (`if verbose > 0: print(...)`). -/
def vprint (v : ℤ) : List Ev := if v > 0 then [Ev.eprint] else []

/-- The scalar configuration handed to the `Condat` optimizer
constructor: `sigma`, `tau`, `rho` (the relaxation factor) and the
choice of primal proximity operator (`Positive()` when the positivity
flag is set, `Identity()` otherwise). -/
structure CondatConf where
  sigma : ℚ
  tau : ℚ
  rho : ℚ
  positivity : Bool
  deriving DecidableEq

/-- The external collaborators of `sparse_rec_condatvu`, abstracted:

* `gradShape`, `specRad`, `gradY`, `mtx`: the gradient operator's
  `fourier_op.shape` (flattened size), `spec_rad`, measured data `y`
  and adjoint application `MtX`;
* `linOp`, `l2norm`, `linStore`: the linear operator's forward
  transform `op`, its `l2norm(shape)`, and the semantics of
  `set_coeff` (the value of the `coeff` attribute after
  `set_coeff(c)` is `linStore c`);
* `sigmaMad`: the external `sigma_mad` noise estimator;
* `mkCwb`, `mkMRw`, `rwReweight`, `rwWeights`: the `cwbReweight(w)`
  and `mReweight(w, linear_op, thresh_factor)` constructors, the
  `reweight(data)` call (returning the updated object and the noise
  scale it reports) and the `weights` attribute, over an abstract
  reweighter type `RW`;
* `step`: one deterministic update of the delegated optimizer,
  modelled from the spec (section 4.3), parametrized by the Condat
  configuration and the currently installed dual-proximity weights. -/
structure ExtOps (RW : Type) where
  gradShape : ℕ
  specRad : ℚ
  gradY : Arr
  mtx : Arr → Arr
  linOp : Arr → Arr
  l2norm : ℕ → ℚ
  linStore : Arr → Arr
  sigmaMad : Arr → ℚ
  mkCwb : Arr → RW
  mkMRw : Arr → ℚ → RW
  rwReweight : RW → Arr → RW × ℚ
  rwWeights : RW → Arr
  step : CondatConf → Arr → OptPair → OptPair

/-- The scalar arguments of `sparse_rec_condatvu`. -/
structure Args where
  std_est : Option ℚ
  std_est_method : Option String
  std_thr : ℚ
  mu : ℚ
  tau : Option ℚ
  sigma : Option ℚ
  relaxation_factor : ℚ
  nb_of_reweights : ℕ
  max_nb_of_iter : ℕ
  add_positivity : Bool
  atol : ℚ
  verbose : ℤ
  deriving DecidableEq

/-- `std_est_method in (None, "primal", "dual")`. -/
def stdEstMethodValid : Option String → Bool
  | none => true
  | some s => s == "primal" || s == "dual"

/-- The observable outcome of one successful call: the two returned
values, the linear operator's mutated `coeff` attribute, the
intermediate `x_final`/`y_final` captured right after the first pass
(source lines 207-208), the scalars handed to the `Condat` and
`DualGapCost` constructors, the computed convergence certificate, the
weight array as filled before the first pass, and the effective number
of reweighting passes. -/
structure RunResult where
  xFinal : Arr
  yFinal : Arr
  coeff : Arr
  linCoeffFinal : Arr
  xAfterFirstPass : Arr
  yAfterFirstPass : Arr
  condatSigma : ℚ
  condatTau : ℚ
  condatRho : ℚ
  convergenceTest : Bool
  costInitialCost : ℚ
  costTolerance : ℚ
  costInterval : ℕ
  costTestRange : ℕ
  initialWeights : Arr
  nbReweightsEffective : ℕ
  deriving DecidableEq, Inhabited

/-- `n` successive optimizer updates with a fixed configuration and
fixed dual-proximity weights.  Modelled from the spec: both the
single-step mode (`update`) and the continuation mode
(`iterate(max_iter)`) repeat the same deterministic update rule, purely
iteration-count bounded (spec section 4.3). -/
def iterSteps {RW : Type} (ops : ExtOps RW) (conf : CondatConf) (w : Arr) :
    ℕ → OptPair → OptPair
  | 0, p => p
  | n + 1, p => iterSteps ops conf w n (ops.step conf w p)

/-- The mutable state threaded through the reweighting loop: the
optimizer's primal/dual pair, the reweighting object (absent in manual
mode), the current noise-scale estimate, and the event trace. -/
structure LoopSt (RW : Type) where
  pair : OptPair
  rw : Option RW
  stdEst : Option ℚ
  trace : List Ev

/-- One iteration of the reweighting loop (source lines 211-228):
generate new weights from the current solution (`linear_op.op(x_new)`
in primal mode, `x_new` otherwise; the returned noise scale is kept
only in the non-primal branch), print when verbose, install the
reweighter's weights into the dual proximity operator, then resume the
optimizer for `max_nb_of_iter` further iterations.  The `none` branch
is unreachable in the translated program: manual mode forces the loop
bound to zero. -/
def rwPass {RW : Type} (ops : ExtOps RW) (conf : CondatConf)
    (method : Option String) (maxIter : ℕ) (verbose : ℤ)
    (st : LoopSt RW) : LoopSt RW :=
  match st.rw with
  | none => st
  | some r =>
    let data := if method == some "primal" then ops.linOp st.pair.1 else st.pair.1
    let res := ops.rwReweight r data
    let stdEst1 := if method == some "primal" then st.stdEst else some res.2
    let w1 := ops.rwWeights res.1
    let pair1 := iterSteps ops conf w1 maxIter st.pair
    { pair := pair1, rw := some res.1, stdEst := stdEst1,
      trace := st.trace ++ [Ev.reweight data] ++ vprint verbose
        ++ [Ev.installW w1] ++ List.replicate maxIter Ev.update }

/-- `for reweight_index in range(n)`: the reweighting loop. -/
def rwLoop {RW : Type} (ops : ExtOps RW) (conf : CondatConf)
    (method : Option String) (maxIter : ℕ) (verbose : ℤ) :
    ℕ → LoopSt RW → LoopSt RW
  | 0, st => st
  | n + 1, st => rwLoop ops conf method maxIter verbose n
      (rwPass ops conf method maxIter verbose st)

/-- Source lines 136-137: `sigma = 0.5` when not supplied. -/
def derivedSigma (a : Args) : ℚ :=
  match a.sigma with
  | some s => s
  | none => 1/2

/-- Source lines 138-142: when `tau` is not supplied,
`tau = 1.0 / (lipschitz_cst/2 + sigma * norm**2 + eps)` with
`eps = 1.0e-8`, `lipschitz_cst = gradient_op.spec_rad` and
`norm = linear_op.l2norm(gradient_op.fourier_op.shape)`. -/
def derivedTau {RW : Type} (ops : ExtOps RW) (a : Args) : ℚ :=
  match a.tau with
  | some t => t
  | none =>
    1 / (ops.specRad/2 + derivedSigma a * (ops.l2norm ops.gradShape)^2
      + 1/100000000)

/-- Source lines 143-144: the convergence certificate
`1.0 / tau - sigma * norm ** 2 >= lipschitz_cst / 2.0`. -/
def certifTest {RW : Type} (ops : ExtOps RW) (a : Args) : Bool :=
  decide ((1 : ℚ)/derivedTau ops a
    - derivedSigma a * (ops.l2norm ops.gradShape)^2 ≥ ops.specRad/2)

/-- Source lines 184-198: the scalar configuration handed to the
`Condat` constructor. -/
def derivedConf {RW : Type} (ops : ExtOps RW) (a : Args) : CondatConf :=
  { sigma := derivedSigma a, tau := derivedTau ops a,
    rho := a.relaxation_factor, positivity := a.add_positivity }

/-- Source line 147: `primal = np.zeros(gradient_op.fourier_op.shape)`. -/
def primalInit {RW : Type} (ops : ExtOps RW) : Arr :=
  List.replicate ops.gradShape Cx.zero

/-- Source lines 148-149: `dual = linear_op.op(primal); dual[...] = 0.0`. -/
def dualInit {RW : Type} (ops : ExtOps RW) : Arr :=
  fillConst (ops.linOp (primalInit ops)) Cx.zero

/-- Source line 102: `x_init = np.zeros(gradient_op.fourier_op.shape)`. -/
def xInit {RW : Type} (ops : ExtOps RW) : Arr :=
  List.replicate ops.gradShape Cx.zero

/-- Source lines 110-111: in primal mode,
`std_est = sigma_mad(gradient_op.MtX(gradient_op.y))` when no estimate
is supplied. -/
def stdEstPrimal {RW : Type} (ops : ExtOps RW) (a : Args) : ℚ :=
  Option.getD a.std_est (ops.sigmaMad (ops.mtx ops.gradY))

/-- Source lines 118-119: in dual mode, `std_est = 0.0` when no
estimate is supplied. -/
def stdEstDual (a : Args) : ℚ := Option.getD a.std_est 0

/-- Source lines 103 and 112: `weights = linear_op.op(x_init);
weights[...] = std_thr * std_est` (primal mode). -/
def weightsPrimal {RW : Type} (ops : ExtOps RW) (a : Args) : Arr :=
  fillConst (ops.linOp (xInit ops)) (Cx.ofReal (a.std_thr * stdEstPrimal ops a))

/-- Source lines 103 and 120: the same fill in dual mode. -/
def weightsDual {RW : Type} (ops : ExtOps RW) (a : Args) : Arr :=
  fillConst (ops.linOp (xInit ops)) (Cx.ofReal (a.std_thr * stdEstDual a))

/-- Source lines 103 and 126: `weights[...] = mu` (manual mode). -/
def weightsManual {RW : Type} (ops : ExtOps RW) (a : Args) : Arr :=
  fillConst (ops.linOp (xInit ops)) (Cx.ofReal a.mu)

/-- Source lines 204-205: the first pass,
`for i in range(max_nb_of_iter): opt.update()`, started from the zero
primal/dual pair with the initially installed dual-proximity weights. -/
def firstPassPair {RW : Type} (ops : ExtOps RW) (a : Args) (proxW0 : Arr) :
    OptPair :=
  iterSteps ops (derivedConf ops a) proxW0 a.max_nb_of_iter
    (primalInit ops, dualInit ops)

/-- The loop state reached after the first pass (source lines 204-208)
followed by the reweighting loop (source lines 211-228), starting from
the zero primal/dual pair, with the trace accumulated so far: the
events before the first pass are the allocation of the primal array,
the verbosity-gated welcome block (source lines 152-165) and start
message (source lines 201-202), then one update event per first-pass
iteration. -/
def loopOut {RW : Type} (ops : ExtOps RW) (a : Args) (stdEst1 : Option ℚ)
    (proxW0 : Arr) (rwOpt : Option RW) (nbRw : ℕ) (tr : List Ev) :
    LoopSt RW :=
  rwLoop ops (derivedConf ops a) a.std_est_method a.max_nb_of_iter
    a.verbose nbRw
    { pair := firstPassPair ops a proxW0, rw := rwOpt, stdEst := stdEst1,
      trace := tr ++ [Ev.alloc ops.gradShape] ++ vprint a.verbose
        ++ vprint a.verbose ++ List.replicate a.max_nb_of_iter Ev.update }

/-- Source lines 131-244: everything after the weight/reweighter setup.
Derives step sizes and the convergence certificate, allocates the
primal/dual pair, builds the cost function (`DualGapCost` with the
literal constructor arguments of source lines 174-181) and the
optimizer, performs the first pass of `max_nb_of_iter` updates, runs
the reweighting loop, and stores the final dual solution into the
linear operator. -/
def finishRun {RW : Type} (ops : ExtOps RW) (a : Args) (stdEst1 : Option ℚ)
    (weights1 proxW0 : Arr) (rwOpt : Option RW) (nbRw : ℕ) (tr : List Ev) :
    Except String RunResult × List Ev :=
  let stN := loopOut ops a stdEst1 proxW0 rwOpt nbRw tr
  (Except.ok
    { xFinal := stN.pair.1, yFinal := stN.pair.2,
      coeff := ops.linStore stN.pair.2,
      linCoeffFinal := ops.linStore stN.pair.2,
      xAfterFirstPass := (firstPassPair ops a proxW0).1,
      yAfterFirstPass := (firstPassPair ops a proxW0).2,
      condatSigma := derivedSigma a, condatTau := derivedTau ops a,
      condatRho := a.relaxation_factor,
      convergenceTest := certifTest ops a,
      costInitialCost := 1000000, costTolerance := 1/10000,
      costInterval := 1, costTestRange := 4,
      initialWeights := weights1, nbReweightsEffective := nbRw },
    stN.trace ++ vprint a.verbose ++ [Ev.setCoeff stN.pair.2])

/-- The embedding of `sparse_rec_condatvu`.  Mirrors the source: print
the logo when verbose, reject an unrecognized `std_est_method`,
allocate the zero image and its transform, fill the weight array and
build the reweighting/proximity objects according to the estimation
mode (with `nb_of_reweights` forced to `0` in manual mode), then hand
over to `finishRun`. -/
def runRec {RW : Type} (ops : ExtOps RW) (a : Args) :
    Except String RunResult × List Ev :=
  if stdEstMethodValid a.std_est_method then
    if a.std_est_method == some "primal" then
      finishRun ops a (some (stdEstPrimal ops a)) (weightsPrimal ops a)
        (ops.rwWeights (ops.mkCwb (weightsPrimal ops a)))
        (some (ops.mkCwb (weightsPrimal ops a)))
        a.nb_of_reweights (vprint a.verbose ++ [Ev.alloc ops.gradShape])
    else if a.std_est_method == some "dual" then
      finishRun ops a (some (stdEstDual a)) (weightsDual ops a)
        (ops.rwWeights (ops.mkMRw (weightsDual ops a) a.std_thr))
        (some (ops.mkMRw (weightsDual ops a) a.std_thr))
        a.nb_of_reweights (vprint a.verbose ++ [Ev.alloc ops.gradShape])
    else
      finishRun ops a a.std_est (weightsManual ops a) (weightsManual ops a)
        none 0 (vprint a.verbose ++ [Ev.alloc ops.gradShape])
  else
    (Except.error "Unrecognize std estimation method.", vprint a.verbose)

/-- One reweighting pass as the specification describes it, acting on
the carried pair and reweighter only: ask the strategy for new weights
from the current solution, then resume the iterator from the
carried-over primal/dual state with those weights installed. -/
def specPass {RW : Type} (ops : ExtOps RW) (conf : CondatConf)
    (method : Option String) (maxIter : ℕ) (pr : OptPair × RW) :
    OptPair × RW :=
  let data := if method == some "primal" then ops.linOp pr.1.1 else pr.1.1
  let r1 := (ops.rwReweight pr.2 data).1
  (iterSteps ops conf (ops.rwWeights r1) maxIter pr.1, r1)

/-- `n`-fold composition of `specPass`, threading one state. -/
def specPassIter {RW : Type} (ops : ExtOps RW) (conf : CondatConf)
    (method : Option String) (maxIter : ℕ) :
    ℕ → OptPair × RW → OptPair × RW
  | 0, pr => pr
  | n + 1, pr => specPassIter ops conf method maxIter n
      (specPass ops conf method maxIter pr)

/-- The event blocks the reweighting loop is expected to emit: per pass,
one reweighting call on the current solution, the verbosity-gated
print, one weight installation, then exactly `maxIter` optimizer
updates; each block computed from the state carried over from the
previous pass. -/
def specBlocks {RW : Type} (ops : ExtOps RW) (conf : CondatConf)
    (method : Option String) (maxIter : ℕ) (verbose : ℤ) :
    ℕ → OptPair × RW → List Ev
  | 0, _ => []
  | n + 1, pr =>
    let data := if method == some "primal" then ops.linOp pr.1.1 else pr.1.1
    let r1 := (ops.rwReweight pr.2 data).1
    [Ev.reweight data] ++ vprint verbose ++ [Ev.installW (ops.rwWeights r1)]
      ++ List.replicate maxIter Ev.update
      ++ specBlocks ops conf method maxIter verbose n
          (specPass ops conf method maxIter pr)

/-- Number of optimizer updates recorded in a trace. -/
def countUpd (l : List Ev) : ℕ := l.countP Ev.isUpdate

/-- A concrete instantiation of the external collaborators, used to
evaluate the embedding on closed inputs.  The reweighter type is `Unit`;
the optimizer step shifts every primal entry by `tau` and replaces the
dual by the currently installed weights, so that iteration genuinely
moves the state and weight installation is observable. -/
def demoOps : ExtOps Unit :=
  { gradShape := 2
    specRad := 2
    gradY := [(1, 0), (0, 0)]
    mtx := fun v => v
    linOp := fun v => v
    l2norm := fun _ => 1
    linStore := fun v => v
    sigmaMad := fun _ => 1
    mkCwb := fun _ => ()
    mkMRw := fun _ _ => ()
    rwReweight := fun _ _ => ((), 3)
    rwWeights := fun _ => [(7, 0), (7, 0)]
    step := fun conf w p => (p.1.map (fun c => (c.1 + conf.tau, c.2)), w) }

/-- A concrete argument vector (dual-mode estimation, two reweights). -/
def demoArgs : Args :=
  { std_est := none
    std_est_method := some "dual"
    std_thr := 2
    mu := 1/1000000
    tau := none
    sigma := none
    relaxation_factor := 1
    nb_of_reweights := 2
    max_nb_of_iter := 2
    add_positivity := false
    atol := 1/10000
    verbose := 1 }

/-- The successful outcome of a run (default if the run failed). -/
def okPart (p : Except String RunResult × List Ev) : RunResult :=
  p.1.toOption.getD default

/-- The outcome of running the demo operators on argument vector `a`. -/
def demoRes (a : Args) : RunResult := okPart (runRec demoOps a)

/-- The trace of running the demo operators on argument vector `a`. -/
def demoTrace (a : Args) : List Ev := (runRec demoOps a).2

/-- Is this event a reweighting call? -/
def Ev.isReweight : Ev → Bool
  | .reweight _ => true
  | _ => false

/-- Is this event a weight installation? -/
def Ev.isInstall : Ev → Bool
  | .installW _ => true
  | _ => false

/-- Arguments with explicit step sizes `sigma = 1/2`, `tau = 7/10`: with
`spec_rad = 2` and operator norm `1` the certificate is false there
although `7/10 <= 1/(1+1/4)`. -/
def cexArgsC1 : Args := { demoArgs with sigma := some (1/2), tau := some (7/10) }

/-- Arguments with explicit step sizes `sigma = 1/2`, `tau = 1`. -/
def wArgsC1 : Args := { demoArgs with sigma := some (1/2), tau := some 1 }

/-- Arguments in manual mode (no estimation method). -/
def wArgsManual : Args := { demoArgs with std_est_method := none }

/-- Arguments with an unrecognized estimation method. -/
def wArgsInvalid : Args := { demoArgs with std_est_method := some "foo" }

/-- Arguments requesting zero optimizer iterations. -/
def wArgsZero : Args := { demoArgs with max_nb_of_iter := 0 }

/-- Arguments with a non-default convergence tolerance. -/
def wArgsAtol : Args := { demoArgs with atol := 1/2 }

/-- Arguments in primal estimation mode. -/
def wArgsPrimal : Args := { demoArgs with std_est_method := some "primal" }

/-! ## Helper lemmas -/

theorem vprint_eq_nil_or (v : ℤ) : vprint v = [] ∨ vprint v = [Ev.eprint] := by
  unfold vprint
  split
  · exact Or.inr rfl
  · exact Or.inl rfl

theorem mem_vprint {v : ℤ} {e : Ev} (he : e ∈ vprint v) : e = Ev.eprint := by
  rcases vprint_eq_nil_or v with h | h <;> rw [h] at he
  · simp at he
  · simpa using he

theorem countUpd_append (l m : List Ev) :
    countUpd (l ++ m) = countUpd l + countUpd m := by
  simp [countUpd, List.countP_append]

theorem countUpd_replicate (n : ℕ) :
    countUpd (List.replicate n Ev.update) = n := by
  induction n with
  | zero => rfl
  | succ n ih =>
    rw [List.replicate_succ]
    simp [countUpd, List.countP_cons, Ev.isUpdate] at ih ⊢
    omega

theorem countUpd_vprint (v : ℤ) : countUpd (vprint v) = 0 := by
  rcases vprint_eq_nil_or v with h | h <;>
    simp [h, countUpd, List.countP_cons, Ev.isUpdate]

theorem countUpd_specBlocks {RW : Type} (ops : ExtOps RW) (conf : CondatConf)
    (method : Option String) (maxIter : ℕ) (verbose : ℤ) :
    ∀ (n : ℕ) (pr : OptPair × RW),
      countUpd (specBlocks ops conf method maxIter verbose n pr)
        = n * maxIter := by
  intro n
  induction n with
  | zero => intro pr; simp [specBlocks, countUpd]
  | succ n ih =>
    intro pr
    simp only [specBlocks]
    rw [countUpd_append, countUpd_append, countUpd_append, countUpd_append,
      countUpd_vprint, countUpd_replicate, ih]
    have h1 : ∀ d, countUpd [Ev.reweight d] = 0 := fun _ => rfl
    have h2 : ∀ w, countUpd [Ev.installW w] = 0 := fun _ => rfl
    rw [h1, h2]
    ring

theorem valid_method_cases {m : Option String}
    (h : stdEstMethodValid m = true) :
    m = none ∨ m = some "primal" ∨ m = some "dual" := by
  match m with
  | none => exact Or.inl rfl
  | some s =>
    right
    simp only [stdEstMethodValid, Bool.or_eq_true, beq_iff_eq] at h
    rcases h with h | h
    · exact Or.inl (by rw [h])
    · exact Or.inr (by rw [h])

theorem runRec_invalid {RW : Type} (ops : ExtOps RW) (a : Args)
    (h : stdEstMethodValid a.std_est_method = false) :
    runRec ops a
      = (Except.error "Unrecognize std estimation method.",
        vprint a.verbose) := by
  simp [runRec, h]

theorem runRec_manual {RW : Type} (ops : ExtOps RW) (a : Args)
    (h : a.std_est_method = none) :
    runRec ops a
      = finishRun ops a a.std_est (weightsManual ops a) (weightsManual ops a)
        none 0 (vprint a.verbose ++ [Ev.alloc ops.gradShape]) := by
  have h1 : stdEstMethodValid a.std_est_method = true := by rw [h]; rfl
  have h2 : (a.std_est_method == some "primal") = false := by rw [h]; rfl
  have h3 : (a.std_est_method == some "dual") = false := by rw [h]; rfl
  simp [runRec, h1, h2, h3]

theorem runRec_primal {RW : Type} (ops : ExtOps RW) (a : Args)
    (h : a.std_est_method = some "primal") :
    runRec ops a
      = finishRun ops a (some (stdEstPrimal ops a)) (weightsPrimal ops a)
        (ops.rwWeights (ops.mkCwb (weightsPrimal ops a)))
        (some (ops.mkCwb (weightsPrimal ops a)))
        a.nb_of_reweights
        (vprint a.verbose ++ [Ev.alloc ops.gradShape]) := by
  have h1 : stdEstMethodValid a.std_est_method = true := by rw [h]; rfl
  have h2 : (a.std_est_method == some "primal") = true := by rw [h]; rfl
  simp [runRec, h1, h2]

theorem runRec_dual {RW : Type} (ops : ExtOps RW) (a : Args)
    (h : a.std_est_method = some "dual") :
    runRec ops a
      = finishRun ops a (some (stdEstDual a)) (weightsDual ops a)
        (ops.rwWeights (ops.mkMRw (weightsDual ops a) a.std_thr))
        (some (ops.mkMRw (weightsDual ops a) a.std_thr))
        a.nb_of_reweights
        (vprint a.verbose ++ [Ev.alloc ops.gradShape]) := by
  have h1 : stdEstMethodValid a.std_est_method = true := by rw [h]; rfl
  have h2 : (a.std_est_method == some "primal") = false := by rw [h]; rfl
  have h3 : (a.std_est_method == some "dual") = true := by rw [h]; rfl
  simp [runRec, h1, h2, h3]

theorem finishRun_components {RW : Type} (ops : ExtOps RW) (a : Args)
    (se : Option ℚ) (w p : Arr) (rwo : Option RW) (nb : ℕ) (tr : List Ev) :
    finishRun ops a se w p rwo nb tr
      = (Except.ok
          { xFinal := (loopOut ops a se p rwo nb tr).pair.1,
            yFinal := (loopOut ops a se p rwo nb tr).pair.2,
            coeff := ops.linStore (loopOut ops a se p rwo nb tr).pair.2,
            linCoeffFinal := ops.linStore (loopOut ops a se p rwo nb tr).pair.2,
            xAfterFirstPass := (firstPassPair ops a p).1,
            yAfterFirstPass := (firstPassPair ops a p).2,
            condatSigma := derivedSigma a, condatTau := derivedTau ops a,
            condatRho := a.relaxation_factor,
            convergenceTest := certifTest ops a,
            costInitialCost := 1000000, costTolerance := 1/10000,
            costInterval := 1, costTestRange := 4,
            initialWeights := w, nbReweightsEffective := nb },
        (loopOut ops a se p rwo nb tr).trace ++ vprint a.verbose
          ++ [Ev.setCoeff (loopOut ops a se p rwo nb tr).pair.2]) := rfl

theorem rwLoop_spec {RW : Type} (ops : ExtOps RW) (conf : CondatConf)
    (method : Option String) (maxIter : ℕ) (verbose : ℤ) :
    ∀ (n : ℕ) (st : LoopSt RW) (r0 : RW), st.rw = some r0 →
      (rwLoop ops conf method maxIter verbose n st).pair
          = (specPassIter ops conf method maxIter n (st.pair, r0)).1
        ∧ (rwLoop ops conf method maxIter verbose n st).rw
          = some (specPassIter ops conf method maxIter n (st.pair, r0)).2
        ∧ (rwLoop ops conf method maxIter verbose n st).trace
          = st.trace
            ++ specBlocks ops conf method maxIter verbose n (st.pair, r0) := by
  intro n
  induction n with
  | zero =>
    intro st r0 h
    refine ⟨rfl, ?_, by simp [rwLoop, specBlocks]⟩
    simpa [rwLoop, specPassIter] using h
  | succ n ih =>
    intro st r0 h
    obtain ⟨pair, rwo, se, tr⟩ := st
    obtain rfl : rwo = some r0 := h
    have hstep : rwLoop ops conf method maxIter verbose (n + 1)
        ⟨pair, some r0, se, tr⟩
          = rwLoop ops conf method maxIter verbose n
            (rwPass ops conf method maxIter verbose
              ⟨pair, some r0, se, tr⟩) := rfl
    have hpass : rwPass ops conf method maxIter verbose
        ⟨pair, some r0, se, tr⟩
          = ⟨(specPass ops conf method maxIter (pair, r0)).1,
            some (specPass ops conf method maxIter (pair, r0)).2,
            (if method == some "primal" then se
              else some (ops.rwReweight r0
                (if method == some "primal" then ops.linOp pair.1
                  else pair.1)).2),
            tr ++ ([Ev.reweight
                (if method == some "primal" then ops.linOp pair.1
                  else pair.1)]
              ++ vprint verbose
              ++ [Ev.installW (ops.rwWeights
                  (specPass ops conf method maxIter (pair, r0)).2)]
              ++ List.replicate maxIter Ev.update)⟩ := by
      simp [rwPass, specPass, List.append_assoc]
    rw [hstep, hpass]
    obtain ⟨h1, h2, h3⟩ := ih
      ⟨(specPass ops conf method maxIter (pair, r0)).1,
        some (specPass ops conf method maxIter (pair, r0)).2,
        (if method == some "primal" then se
          else some (ops.rwReweight r0
            (if method == some "primal" then ops.linOp pair.1
              else pair.1)).2),
        tr ++ ([Ev.reweight
            (if method == some "primal" then ops.linOp pair.1
              else pair.1)]
          ++ vprint verbose
          ++ [Ev.installW (ops.rwWeights
              (specPass ops conf method maxIter (pair, r0)).2)]
          ++ List.replicate maxIter Ev.update)⟩
      (specPass ops conf method maxIter (pair, r0)).2 rfl
    refine ⟨?_, ?_, ?_⟩
    · rw [h1]
      simp [specPassIter]
    · rw [h2]
      simp [specPassIter]
    · rw [h3]
      simp [specBlocks, specPass, List.append_assoc]

theorem rwPass_pair_zero {RW : Type} (ops : ExtOps RW) (conf : CondatConf)
    (method : Option String) (verbose : ℤ) (st : LoopSt RW) :
    (rwPass ops conf method 0 verbose st).pair = st.pair := by
  cases h : st.rw <;> simp [rwPass, h, iterSteps]

theorem rwLoop_pair_zero {RW : Type} (ops : ExtOps RW) (conf : CondatConf)
    (method : Option String) (verbose : ℤ) :
    ∀ (n : ℕ) (st : LoopSt RW),
      (rwLoop ops conf method 0 verbose n st).pair = st.pair := by
  intro n
  induction n with
  | zero => intro st; rfl
  | succ n ih =>
    intro st
    have hstep : rwLoop ops conf method 0 verbose (n + 1) st
        = rwLoop ops conf method 0 verbose n
          (rwPass ops conf method 0 verbose st) := rfl
    rw [hstep, ih, rwPass_pair_zero]

theorem rwPass_vindep {RW : Type} (ops : ExtOps RW) (conf : CondatConf)
    (method : Option String) (maxIter : ℕ) (v1 v2 : ℤ) (st st' : LoopSt RW)
    (hp : st.pair = st'.pair) (hr : st.rw = st'.rw) :
    (rwPass ops conf method maxIter v1 st).pair
        = (rwPass ops conf method maxIter v2 st').pair
      ∧ (rwPass ops conf method maxIter v1 st).rw
        = (rwPass ops conf method maxIter v2 st').rw := by
  cases h : st.rw with
  | none =>
    have h' : st'.rw = none := by rw [← hr, h]
    simp [rwPass, h, h', hp, hr]
  | some r =>
    have h' : st'.rw = some r := by rw [← hr, h]
    simp [rwPass, h, h', hp]

theorem rwLoop_vindep {RW : Type} (ops : ExtOps RW) (conf : CondatConf)
    (method : Option String) (maxIter : ℕ) (v1 v2 : ℤ) :
    ∀ (n : ℕ) (st st' : LoopSt RW), st.pair = st'.pair → st.rw = st'.rw →
      (rwLoop ops conf method maxIter v1 n st).pair
        = (rwLoop ops conf method maxIter v2 n st').pair := by
  intro n
  induction n with
  | zero => intro st st' hp hr; exact hp
  | succ n ih =>
    intro st st' hp hr
    have hstep1 : rwLoop ops conf method maxIter v1 (n + 1) st
        = rwLoop ops conf method maxIter v1 n
          (rwPass ops conf method maxIter v1 st) := rfl
    have hstep2 : rwLoop ops conf method maxIter v2 (n + 1) st'
        = rwLoop ops conf method maxIter v2 n
          (rwPass ops conf method maxIter v2 st') := rfl
    rw [hstep1, hstep2]
    obtain ⟨h1, h2⟩ := rwPass_vindep ops conf method maxIter v1 v2 st st' hp hr
    exact ih _ _ h1 h2

theorem runRec_ok_valid {RW : Type} (ops : ExtOps RW) (a : Args)
    (r : RunResult) (tr : List Ev)
    (hrun : runRec ops a = (Except.ok r, tr)) :
    stdEstMethodValid a.std_est_method = true := by
  by_contra h
  rw [Bool.not_eq_true] at h
  rw [runRec_invalid ops a h] at hrun
  have h2 := congrArg Prod.fst hrun
  simp at h2

theorem runRec_ok_fields {RW : Type} (ops : ExtOps RW) (a : Args)
    (r : RunResult) (tr : List Ev)
    (hrun : runRec ops a = (Except.ok r, tr)) :
    r.condatSigma = derivedSigma a ∧ r.condatTau = derivedTau ops a
      ∧ r.condatRho = a.relaxation_factor
      ∧ r.convergenceTest = certifTest ops a
      ∧ r.costTolerance = 1/10000 ∧ r.costInterval = 1
      ∧ r.costTestRange = 4 ∧ r.costInitialCost = 1000000
      ∧ r.coeff = ops.linStore r.yFinal ∧ r.linCoeffFinal = r.coeff := by
  rcases valid_method_cases (runRec_ok_valid ops a r tr hrun) with hm | hm | hm
  · rw [runRec_manual ops a hm, finishRun_components, Prod.mk.injEq] at hrun
    obtain ⟨hok, htr⟩ := hrun
    injection hok with hr
    subst hr
    exact ⟨rfl, rfl, rfl, rfl, rfl, rfl, rfl, rfl, rfl, rfl⟩
  · rw [runRec_primal ops a hm, finishRun_components, Prod.mk.injEq] at hrun
    obtain ⟨hok, htr⟩ := hrun
    injection hok with hr
    subst hr
    exact ⟨rfl, rfl, rfl, rfl, rfl, rfl, rfl, rfl, rfl, rfl⟩
  · rw [runRec_dual ops a hm, finishRun_components, Prod.mk.injEq] at hrun
    obtain ⟨hok, htr⟩ := hrun
    injection hok with hr
    subst hr
    exact ⟨rfl, rfl, rfl, rfl, rfl, rfl, rfl, rfl, rfl, rfl⟩

/-! ## Claim C3 -/

/-- C3: in `sparse_rec_condatvu`, `sigma` defaults to `0.5` when not
supplied; `tau`, when not supplied, is derived as
`1/(beta/2 + sigma * L_norm^2 + 1e-8)` with `beta` the gradient
operator's spectral radius and `L_norm` the linear operator's norm over
the image shape; explicitly supplied `tau` and `sigma` are passed
unchanged to the optimizer. -/
theorem C3_step_size_selection {RW : Type} (ops : ExtOps RW) (a : Args)
    (r : RunResult) (tr : List Ev)
    (hrun : runRec ops a = (Except.ok r, tr)) :
    (∀ s, a.sigma = some s → r.condatSigma = s)
      ∧ (a.sigma = none → r.condatSigma = 1/2)
      ∧ (∀ t, a.tau = some t → r.condatTau = t)
      ∧ (a.tau = none → r.condatTau
          = 1 / (ops.specRad/2
            + r.condatSigma * (ops.l2norm ops.gradShape)^2
            + 1/100000000)) := by
  obtain ⟨hs, ht, -⟩ := runRec_ok_fields ops a r tr hrun
  refine ⟨?_, ?_, ?_, ?_⟩
  · intro s hsig
    rw [hs]
    simp [derivedSigma, hsig]
  · intro hsig
    rw [hs]
    simp [derivedSigma, hsig]
  · intro t htau
    rw [ht]
    simp [derivedTau, htau]
  · intro htau
    rw [ht, hs]
    simp [derivedTau, htau]

/-- Closed instance of C3 at the demo operators with `sigma` and `tau`
both unset. -/
theorem C3_step_size_selection_witness :
    runRec demoOps demoArgs = (Except.ok (demoRes demoArgs), demoTrace demoArgs)
      ∧ ((∀ s, demoArgs.sigma = some s → (demoRes demoArgs).condatSigma = s)
        ∧ (demoArgs.sigma = none → (demoRes demoArgs).condatSigma = 1/2)
        ∧ (∀ t, demoArgs.tau = some t → (demoRes demoArgs).condatTau = t)
        ∧ (demoArgs.tau = none → (demoRes demoArgs).condatTau
            = 1 / (demoOps.specRad/2
              + (demoRes demoArgs).condatSigma
                * (demoOps.l2norm demoOps.gradShape)^2
              + 1/100000000))) :=
  ⟨rfl, C3_step_size_selection demoOps demoArgs (demoRes demoArgs)
    (demoTrace demoArgs) rfl⟩

theorem countP_vprint_zero (p : Ev → Bool) (v : ℤ)
    (hp : p Ev.eprint = false) : (vprint v).countP p = 0 := by
  rcases vprint_eq_nil_or v with h | h <;> simp [h, List.countP_cons, hp]

theorem countP_replicate_zero (p : Ev → Bool) (e : Ev) (n : ℕ)
    (hp : p e = false) : (List.replicate n e).countP p = 0 := by
  induction n with
  | zero => rfl
  | succ k ih =>
    rw [List.replicate_succ]
    simp [List.countP_cons, hp, ih]

/-! ## Claim C4 -/

/-- C4: `sparse_rec_condatvu` fails with the invalid-configuration
error exactly when `std_est_method` is not one of `None`, `"primal"`,
`"dual"`; when it fails, the trace records no array allocation and no
numerical work — at most the verbosity-gated logo print. -/
theorem C4_invalid_method_error {RW : Type} (ops : ExtOps RW) (a : Args) :
    ((runRec ops a).1 = Except.error "Unrecognize std estimation method."
        ↔ stdEstMethodValid a.std_est_method = false)
      ∧ (stdEstMethodValid a.std_est_method = false →
          ((runRec ops a).2.all (fun e => e == Ev.eprint)) = true) := by
  constructor
  · constructor
    · intro h
      by_contra hv
      rw [Bool.not_eq_false] at hv
      rcases valid_method_cases hv with hm | hm | hm
      · rw [runRec_manual ops a hm, finishRun_components] at h
        simp at h
      · rw [runRec_primal ops a hm, finishRun_components] at h
        simp at h
      · rw [runRec_dual ops a hm, finishRun_components] at h
        simp at h
    · intro h
      rw [runRec_invalid ops a h]
  · intro h
    rw [runRec_invalid ops a h]
    rcases vprint_eq_nil_or a.verbose with hv | hv <;>
      simp [hv]

/-- Closed instance of C4 at the unrecognized method `"foo"`. -/
theorem C4_invalid_method_error_witness :
    ((runRec demoOps wArgsInvalid).1
        = Except.error "Unrecognize std estimation method.")
      ∧ ((runRec demoOps wArgsInvalid).2.all (fun e => e == Ev.eprint))
        = true :=
  ⟨(C4_invalid_method_error demoOps wArgsInvalid).1.mpr rfl,
    (C4_invalid_method_error demoOps wArgsInvalid).2 rfl⟩

/-! ## Claim C2 -/

/-- C2: with `std_est_method` unset (manual mode) the number of
reweights is forced to zero regardless of the requested
`nb_of_reweights`: the run records no reweighting call and no weight
installation, and performs exactly one pass of `max_nb_of_iter`
optimizer updates. -/
theorem C2_manual_mode_single_pass {RW : Type} (ops : ExtOps RW) (a : Args)
    (r : RunResult) (tr : List Ev)
    (hm : a.std_est_method = none)
    (hrun : runRec ops a = (Except.ok r, tr)) :
    r.nbReweightsEffective = 0
      ∧ countUpd tr = a.max_nb_of_iter
      ∧ tr.countP Ev.isReweight = 0
      ∧ tr.countP Ev.isInstall = 0 := by
  rw [runRec_manual ops a hm, finishRun_components, Prod.mk.injEq] at hrun
  obtain ⟨hok, htr⟩ := hrun
  injection hok with hr
  subst hr
  subst htr
  have htr2 : (loopOut ops a a.std_est (weightsManual ops a) none 0
      (vprint a.verbose ++ [Ev.alloc ops.gradShape])).trace
        = (vprint a.verbose ++ [Ev.alloc ops.gradShape])
          ++ [Ev.alloc ops.gradShape] ++ vprint a.verbose
          ++ vprint a.verbose
          ++ List.replicate a.max_nb_of_iter Ev.update := rfl
  refine ⟨rfl, ?_, ?_, ?_⟩
  · rw [htr2]
    have hvu : Ev.isUpdate Ev.eprint = false := rfl
    have hrep : ∀ n, List.countP Ev.isUpdate (List.replicate n Ev.update) = n :=
      fun n => countUpd_replicate n
    simp [countUpd, List.countP_append, List.countP_cons, Ev.isUpdate,
      countP_vprint_zero _ _ hvu, hrep]
  · rw [htr2]
    have h1 : Ev.isReweight Ev.eprint = false := rfl
    have h2 : Ev.isReweight Ev.update = false := rfl
    simp [List.countP_append, countP_vprint_zero _ _ h1,
      countP_replicate_zero _ _ _ h2, List.countP_cons, Ev.isReweight]
  · rw [htr2]
    have h1 : Ev.isInstall Ev.eprint = false := rfl
    have h2 : Ev.isInstall Ev.update = false := rfl
    simp [List.countP_append, countP_vprint_zero _ _ h1,
      countP_replicate_zero _ _ _ h2, List.countP_cons, Ev.isInstall]

/-- Closed instance of C2: manual mode with two requested reweights. -/
theorem C2_manual_mode_single_pass_witness :
    wArgsManual.std_est_method = none
      ∧ runRec demoOps wArgsManual
        = (Except.ok (demoRes wArgsManual), demoTrace wArgsManual)
      ∧ ((demoRes wArgsManual).nbReweightsEffective = 0
        ∧ countUpd (demoTrace wArgsManual) = wArgsManual.max_nb_of_iter
        ∧ (demoTrace wArgsManual).countP Ev.isReweight = 0
        ∧ (demoTrace wArgsManual).countP Ev.isInstall = 0) :=
  ⟨rfl, rfl, C2_manual_mode_single_pass demoOps wArgsManual
    (demoRes wArgsManual) (demoTrace wArgsManual) rfl rfl⟩

theorem mem_fillConst {l : Arr} {c x : Cx} (h : x ∈ fillConst l c) :
    x = c := by
  rcases List.mem_map.mp h with ⟨b, -, hb⟩
  exact hb.symm

theorem getLast?_append_single (l : List Ev) (e : Ev) :
    (l ++ [e]).getLast? = some e :=
  List.getLast?_concat l

/-! ## Claim C6 -/

/-- C6: at the start of the first splitting pass every entry of the
weight array equals one mode-determined constant: `std_thr * std_est`
in primal mode (with `std_est` computed by the external estimator on
the adjoint-applied data when not supplied), `std_thr * std_est` in
dual mode — which is zero when no prior estimate is given, so the
first pass is unregularized — and `mu` in manual mode. -/
theorem C6_initial_weights_constant {RW : Type} (ops : ExtOps RW) (a : Args)
    (r : RunResult) (tr : List Ev)
    (hrun : runRec ops a = (Except.ok r, tr)) :
    (∀ c ∈ r.initialWeights,
        c = Cx.ofReal
          (if a.std_est_method == some "primal"
            then a.std_thr * stdEstPrimal ops a
            else if a.std_est_method == some "dual"
              then a.std_thr * stdEstDual a
              else a.mu))
      ∧ (a.std_est_method = some "dual" → a.std_est = none →
          ∀ c ∈ r.initialWeights, c = Cx.zero) := by
  rcases valid_method_cases (runRec_ok_valid ops a r tr hrun) with hm | hm | hm
  · rw [runRec_manual ops a hm, finishRun_components, Prod.mk.injEq] at hrun
    obtain ⟨hok, htr⟩ := hrun
    injection hok with hr
    subst hr
    have hb1 : (a.std_est_method == some "primal") = false := by rw [hm]; rfl
    have hb2 : (a.std_est_method == some "dual") = false := by rw [hm]; rfl
    constructor
    · intro c hc
      rw [hb1, hb2]
      simp only [Bool.false_eq_true, if_false]
      exact mem_fillConst hc
    · intro hd
      rw [hm] at hd
      simp at hd
  · rw [runRec_primal ops a hm, finishRun_components, Prod.mk.injEq] at hrun
    obtain ⟨hok, htr⟩ := hrun
    injection hok with hr
    subst hr
    have hb1 : (a.std_est_method == some "primal") = true := by rw [hm]; rfl
    constructor
    · intro c hc
      rw [hb1]
      simp only [if_true]
      exact mem_fillConst hc
    · intro hd
      rw [hm] at hd
      simp at hd
  · rw [runRec_dual ops a hm, finishRun_components, Prod.mk.injEq] at hrun
    obtain ⟨hok, htr⟩ := hrun
    injection hok with hr
    subst hr
    have hb1 : (a.std_est_method == some "primal") = false := by rw [hm]; rfl
    have hb2 : (a.std_est_method == some "dual") = true := by rw [hm]; rfl
    constructor
    · intro c hc
      rw [hb1, hb2]
      simp only [Bool.false_eq_true, if_false, if_true]
      exact mem_fillConst hc
    · intro hd hse c hc
      have hc2 := mem_fillConst hc
      rw [hc2]
      simp [stdEstDual, hse, Cx.ofReal, Cx.zero]

/-- Closed instance of C6: dual mode with no supplied estimate. -/
theorem C6_initial_weights_constant_witness :
    runRec demoOps demoArgs
        = (Except.ok (demoRes demoArgs), demoTrace demoArgs)
      ∧ ((∀ c ∈ (demoRes demoArgs).initialWeights,
          c = Cx.ofReal
            (if demoArgs.std_est_method == some "primal"
              then demoArgs.std_thr * stdEstPrimal demoOps demoArgs
              else if demoArgs.std_est_method == some "dual"
                then demoArgs.std_thr * stdEstDual demoArgs
                else demoArgs.mu))
        ∧ (demoArgs.std_est_method = some "dual" → demoArgs.std_est = none →
            ∀ c ∈ (demoRes demoArgs).initialWeights, c = Cx.zero)) :=
  ⟨rfl, C6_initial_weights_constant demoOps demoArgs (demoRes demoArgs)
    (demoTrace demoArgs) rfl⟩

/-! ## Claim C10 -/

/-- C10: on every successful return, the second returned value is the
linear operator's `coeff` attribute after the final dual estimate was
written into the operator by `set_coeff` (the last recorded event), so
the call mutates the linear operator's coefficient state. -/
theorem C10_set_coeff_return {RW : Type} (ops : ExtOps RW) (a : Args)
    (r : RunResult) (tr : List Ev)
    (hrun : runRec ops a = (Except.ok r, tr)) :
    r.coeff = ops.linStore r.yFinal
      ∧ r.linCoeffFinal = ops.linStore r.yFinal
      ∧ tr.getLast? = some (Ev.setCoeff r.yFinal) := by
  obtain ⟨-, -, -, -, -, -, -, -, hc, hlc⟩ := runRec_ok_fields ops a r tr hrun
  refine ⟨hc, by rw [hlc, hc], ?_⟩
  rcases valid_method_cases (runRec_ok_valid ops a r tr hrun) with hm | hm | hm
  · rw [runRec_manual ops a hm, finishRun_components, Prod.mk.injEq] at hrun
    obtain ⟨hok, htr⟩ := hrun
    injection hok with hr
    subst hr
    subst htr
    exact getLast?_append_single _ _
  · rw [runRec_primal ops a hm, finishRun_components, Prod.mk.injEq] at hrun
    obtain ⟨hok, htr⟩ := hrun
    injection hok with hr
    subst hr
    subst htr
    exact getLast?_append_single _ _
  · rw [runRec_dual ops a hm, finishRun_components, Prod.mk.injEq] at hrun
    obtain ⟨hok, htr⟩ := hrun
    injection hok with hr
    subst hr
    subst htr
    exact getLast?_append_single _ _

/-- Closed instance of C10 at the demo run. -/
theorem C10_set_coeff_return_witness :
    runRec demoOps demoArgs
        = (Except.ok (demoRes demoArgs), demoTrace demoArgs)
      ∧ ((demoRes demoArgs).coeff
          = demoOps.linStore (demoRes demoArgs).yFinal
        ∧ (demoRes demoArgs).linCoeffFinal
          = demoOps.linStore (demoRes demoArgs).yFinal
        ∧ (demoTrace demoArgs).getLast?
          = some (Ev.setCoeff (demoRes demoArgs).yFinal)) :=
  ⟨rfl, C10_set_coeff_return demoOps demoArgs (demoRes demoArgs)
    (demoTrace demoArgs) rfl⟩

/-! ## Claim C7 -/

/-- C7: with `max_nb_of_iter = 0` the returned primal estimate is the
all-zero array of the Fourier operator's shape and the final dual
estimate is the all-zero initial coefficient array; the second returned
value is that zero coefficient array re-expressed by the linear
operator.  The optimizer internals are modelled from the spec
(section 4.3): zero iterations leave the carried pair untouched. -/
theorem C7_zero_iterations_noop {RW : Type} (ops : ExtOps RW) (a : Args)
    (r : RunResult) (tr : List Ev)
    (hz : a.max_nb_of_iter = 0)
    (hrun : runRec ops a = (Except.ok r, tr)) :
    r.xFinal = List.replicate ops.gradShape Cx.zero
      ∧ r.yFinal
        = fillConst (ops.linOp (List.replicate ops.gradShape Cx.zero)) Cx.zero
      ∧ r.coeff = ops.linStore r.yFinal := by
  obtain ⟨-, -, -, -, -, -, -, -, hc, -⟩ := runRec_ok_fields ops a r tr hrun
  have key : ∀ (se : Option ℚ) (p : Arr) (rwo : Option RW) (nb : ℕ)
      (tr0 : List Ev),
      (loopOut ops a se p rwo nb tr0).pair = (primalInit ops, dualInit ops) := by
    intro se p rwo nb tr0
    unfold loopOut firstPassPair
    rw [hz]
    rw [rwLoop_pair_zero]
    simp [iterSteps]
  rcases valid_method_cases (runRec_ok_valid ops a r tr hrun) with hm | hm | hm
  · rw [runRec_manual ops a hm, finishRun_components, Prod.mk.injEq] at hrun
    obtain ⟨hok, htr⟩ := hrun
    injection hok with hr
    subst hr
    refine ⟨?_, ?_, hc⟩
    · show (loopOut ops a a.std_est (weightsManual ops a) none 0
        (vprint a.verbose ++ [Ev.alloc ops.gradShape])).pair.1 = _
      rw [key]
      simp [primalInit]
    · show (loopOut ops a a.std_est (weightsManual ops a) none 0
        (vprint a.verbose ++ [Ev.alloc ops.gradShape])).pair.2 = _
      rw [key]
      simp [dualInit, primalInit]
  · rw [runRec_primal ops a hm, finishRun_components, Prod.mk.injEq] at hrun
    obtain ⟨hok, htr⟩ := hrun
    injection hok with hr
    subst hr
    refine ⟨?_, ?_, hc⟩
    · show (loopOut ops a (some (stdEstPrimal ops a))
        (ops.rwWeights (ops.mkCwb (weightsPrimal ops a)))
        (some (ops.mkCwb (weightsPrimal ops a))) a.nb_of_reweights
        (vprint a.verbose ++ [Ev.alloc ops.gradShape])).pair.1 = _
      rw [key]
      simp [primalInit]
    · show (loopOut ops a (some (stdEstPrimal ops a))
        (ops.rwWeights (ops.mkCwb (weightsPrimal ops a)))
        (some (ops.mkCwb (weightsPrimal ops a))) a.nb_of_reweights
        (vprint a.verbose ++ [Ev.alloc ops.gradShape])).pair.2 = _
      rw [key]
      simp [dualInit, primalInit]
  · rw [runRec_dual ops a hm, finishRun_components, Prod.mk.injEq] at hrun
    obtain ⟨hok, htr⟩ := hrun
    injection hok with hr
    subst hr
    refine ⟨?_, ?_, hc⟩
    · show (loopOut ops a (some (stdEstDual a))
        (ops.rwWeights (ops.mkMRw (weightsDual ops a) a.std_thr))
        (some (ops.mkMRw (weightsDual ops a) a.std_thr)) a.nb_of_reweights
        (vprint a.verbose ++ [Ev.alloc ops.gradShape])).pair.1 = _
      rw [key]
      simp [primalInit]
    · show (loopOut ops a (some (stdEstDual a))
        (ops.rwWeights (ops.mkMRw (weightsDual ops a) a.std_thr))
        (some (ops.mkMRw (weightsDual ops a) a.std_thr)) a.nb_of_reweights
        (vprint a.verbose ++ [Ev.alloc ops.gradShape])).pair.2 = _
      rw [key]
      simp [dualInit, primalInit]

/-- Closed instance of C7: zero iterations requested, dual mode. -/
theorem C7_zero_iterations_noop_witness :
    wArgsZero.max_nb_of_iter = 0
      ∧ runRec demoOps wArgsZero
        = (Except.ok (demoRes wArgsZero), demoTrace wArgsZero)
      ∧ ((demoRes wArgsZero).xFinal
          = List.replicate demoOps.gradShape Cx.zero
        ∧ (demoRes wArgsZero).yFinal
          = fillConst (demoOps.linOp
              (List.replicate demoOps.gradShape Cx.zero)) Cx.zero
        ∧ (demoRes wArgsZero).coeff
          = demoOps.linStore (demoRes wArgsZero).yFinal) :=
  ⟨rfl, rfl, C7_zero_iterations_noop demoOps wArgsZero (demoRes wArgsZero)
    (demoTrace wArgsZero) rfl rfl⟩

theorem countAlloc_specBlocks {RW : Type} (ops : ExtOps RW)
    (conf : CondatConf) (method : Option String) (maxIter : ℕ)
    (verbose : ℤ) :
    ∀ (n : ℕ) (pr : OptPair × RW),
      (specBlocks ops conf method maxIter verbose n pr).countP Ev.isAlloc
        = 0 := by
  intro n
  induction n with
  | zero => intro pr; rfl
  | succ n ih =>
    intro pr
    simp only [specBlocks]
    have h1 : Ev.isAlloc Ev.eprint = false := rfl
    have h2 : Ev.isAlloc Ev.update = false := rfl
    simp [List.countP_append, List.countP_cons, countP_vprint_zero _ _ h1,
      countP_replicate_zero _ _ _ h2, ih, Ev.isAlloc]

/-! ## Claim C1 (corrected) -/

/-- The hand-computed example in C1 is false of the code: with
`beta = 2`, `L_norm = 1`, `sigma = 1/2` and the positive step size
`tau = 7/10 <= 1/(1 + 1/4)`, the certificate evaluates to false
(the correct threshold is `1/(beta/2 + sigma * L_norm^2) = 2/3`). -/
theorem C1_example_bound_counterexample :
    demoOps.specRad = 2
      ∧ demoOps.l2norm demoOps.gradShape = 1
      ∧ (okPart (runRec demoOps cexArgsC1)).condatSigma = 1/2
      ∧ (0 : ℚ) < (okPart (runRec demoOps cexArgsC1)).condatTau
      ∧ (okPart (runRec demoOps cexArgsC1)).condatTau ≤ 1/(1 + 1/4)
      ∧ (okPart (runRec demoOps cexArgsC1)).convergenceTest = false := by
  have ht : (okPart (runRec demoOps cexArgsC1)).condatTau = 7/10 := rfl
  have hcb : (okPart (runRec demoOps cexArgsC1)).convergenceTest
      = certifTest demoOps cexArgsC1 := rfl
  refine ⟨rfl, rfl, rfl, ?_, ?_, ?_⟩
  · rw [ht]; norm_num
  · rw [ht]; norm_num
  · rw [hcb]
    have h1 : derivedTau demoOps cexArgsC1 = 7/10 := rfl
    have h2 : derivedSigma cexArgsC1 = 1/2 := rfl
    have h3 : demoOps.l2norm demoOps.gradShape = 1 := rfl
    have h4 : demoOps.specRad = 2 := rfl
    unfold certifTest
    rw [h1, h2, h3, h4, decide_eq_false_iff_not]
    norm_num

/-- C1 (amended): the convergence certificate equals the closed-form
test `1/tau - sigma * L_norm^2 >= beta/2` evaluated at the step sizes
actually handed to the optimizer; the run performs exactly
`max_nb_of_iter * (1 + effective number of reweights)` optimizer
updates whatever the inputs, so the certificate never gates execution;
and for `beta = 2`, `L_norm = 1`, `sigma = 1/2` and positive `tau` the
certificate is true exactly when `tau <= 1/(1 + 1/2)` (the claim's
bound `1/(1 + 1/4)` corrected to `1/(1 + 1/2)`). -/
theorem C1_certificate_and_iteration_count {RW : Type} (ops : ExtOps RW)
    (a : Args) (r : RunResult) (tr : List Ev)
    (hrun : runRec ops a = (Except.ok r, tr)) :
    r.convergenceTest
        = decide ((1 : ℚ)/r.condatTau
          - r.condatSigma * (ops.l2norm ops.gradShape)^2 ≥ ops.specRad/2)
      ∧ countUpd tr = a.max_nb_of_iter * (1 + r.nbReweightsEffective)
      ∧ (ops.specRad = 2 → ops.l2norm ops.gradShape = 1 →
          r.condatSigma = 1/2 → 0 < r.condatTau →
          (r.convergenceTest = true ↔ r.condatTau ≤ 1/(1 + 1/2))) := by
  obtain ⟨hs, ht, -, hct, -⟩ := runRec_ok_fields ops a r tr hrun
  refine ⟨by rw [hct, hs, ht]; rfl, ?_, ?_⟩
  · -- the update count
    rcases valid_method_cases (runRec_ok_valid ops a r tr hrun)
      with hm | hm | hm
    · rw [runRec_manual ops a hm, finishRun_components, Prod.mk.injEq] at hrun
      obtain ⟨hok, htr⟩ := hrun
      injection hok with hr
      subst hr
      subst htr
      have htr2 : (loopOut ops a a.std_est (weightsManual ops a) none 0
          (vprint a.verbose ++ [Ev.alloc ops.gradShape])).trace
            = (vprint a.verbose ++ [Ev.alloc ops.gradShape])
              ++ [Ev.alloc ops.gradShape] ++ vprint a.verbose
              ++ vprint a.verbose
              ++ List.replicate a.max_nb_of_iter Ev.update := rfl
      rw [htr2]
      have hvu : Ev.isUpdate Ev.eprint = false := rfl
      have hrep : ∀ n,
          List.countP Ev.isUpdate (List.replicate n Ev.update) = n :=
        fun n => countUpd_replicate n
      simp [countUpd, List.countP_append, List.countP_cons, Ev.isUpdate,
        countP_vprint_zero _ _ hvu, hrep]
    · rw [runRec_primal ops a hm, finishRun_components, Prod.mk.injEq] at hrun
      obtain ⟨hok, htr⟩ := hrun
      injection hok with hr
      subst hr
      subst htr
      obtain ⟨-, -, htrace⟩ := rwLoop_spec ops (derivedConf ops a)
        a.std_est_method a.max_nb_of_iter a.verbose a.nb_of_reweights
        { pair := firstPassPair ops a
            (ops.rwWeights (ops.mkCwb (weightsPrimal ops a))),
          rw := some (ops.mkCwb (weightsPrimal ops a)),
          stdEst := some (stdEstPrimal ops a),
          trace := (vprint a.verbose ++ [Ev.alloc ops.gradShape])
            ++ [Ev.alloc ops.gradShape] ++ vprint a.verbose
            ++ vprint a.verbose
            ++ List.replicate a.max_nb_of_iter Ev.update }
        (ops.mkCwb (weightsPrimal ops a)) rfl
      have htr2 : (loopOut ops a (some (stdEstPrimal ops a))
          (ops.rwWeights (ops.mkCwb (weightsPrimal ops a)))
          (some (ops.mkCwb (weightsPrimal ops a))) a.nb_of_reweights
          (vprint a.verbose ++ [Ev.alloc ops.gradShape])).trace
            = ((vprint a.verbose ++ [Ev.alloc ops.gradShape])
                ++ [Ev.alloc ops.gradShape] ++ vprint a.verbose
                ++ vprint a.verbose
                ++ List.replicate a.max_nb_of_iter Ev.update)
              ++ specBlocks ops (derivedConf ops a) a.std_est_method
                  a.max_nb_of_iter a.verbose a.nb_of_reweights
                  (firstPassPair ops a
                    (ops.rwWeights (ops.mkCwb (weightsPrimal ops a))),
                  ops.mkCwb (weightsPrimal ops a)) := htrace
      rw [htr2]
      have hvu : Ev.isUpdate Ev.eprint = false := rfl
      have hrep : ∀ n,
          List.countP Ev.isUpdate (List.replicate n Ev.update) = n :=
        fun n => countUpd_replicate n
      have hblocks := countUpd_specBlocks ops (derivedConf ops a)
        a.std_est_method a.max_nb_of_iter a.verbose a.nb_of_reweights
        (firstPassPair ops a
          (ops.rwWeights (ops.mkCwb (weightsPrimal ops a))),
        ops.mkCwb (weightsPrimal ops a))
      simp only [countUpd, List.countP_append] at hblocks ⊢
      rw [hblocks]
      simp [List.countP_cons, Ev.isUpdate, countP_vprint_zero _ _ hvu, hrep]
      ring
    · rw [runRec_dual ops a hm, finishRun_components, Prod.mk.injEq] at hrun
      obtain ⟨hok, htr⟩ := hrun
      injection hok with hr
      subst hr
      subst htr
      obtain ⟨-, -, htrace⟩ := rwLoop_spec ops (derivedConf ops a)
        a.std_est_method a.max_nb_of_iter a.verbose a.nb_of_reweights
        { pair := firstPassPair ops a
            (ops.rwWeights (ops.mkMRw (weightsDual ops a) a.std_thr)),
          rw := some (ops.mkMRw (weightsDual ops a) a.std_thr),
          stdEst := some (stdEstDual a),
          trace := (vprint a.verbose ++ [Ev.alloc ops.gradShape])
            ++ [Ev.alloc ops.gradShape] ++ vprint a.verbose
            ++ vprint a.verbose
            ++ List.replicate a.max_nb_of_iter Ev.update }
        (ops.mkMRw (weightsDual ops a) a.std_thr) rfl
      have htr2 : (loopOut ops a (some (stdEstDual a))
          (ops.rwWeights (ops.mkMRw (weightsDual ops a) a.std_thr))
          (some (ops.mkMRw (weightsDual ops a) a.std_thr)) a.nb_of_reweights
          (vprint a.verbose ++ [Ev.alloc ops.gradShape])).trace
            = ((vprint a.verbose ++ [Ev.alloc ops.gradShape])
                ++ [Ev.alloc ops.gradShape] ++ vprint a.verbose
                ++ vprint a.verbose
                ++ List.replicate a.max_nb_of_iter Ev.update)
              ++ specBlocks ops (derivedConf ops a) a.std_est_method
                  a.max_nb_of_iter a.verbose a.nb_of_reweights
                  (firstPassPair ops a
                    (ops.rwWeights (ops.mkMRw (weightsDual ops a) a.std_thr)),
                  ops.mkMRw (weightsDual ops a) a.std_thr) := htrace
      rw [htr2]
      have hvu : Ev.isUpdate Ev.eprint = false := rfl
      have hrep : ∀ n,
          List.countP Ev.isUpdate (List.replicate n Ev.update) = n :=
        fun n => countUpd_replicate n
      have hblocks := countUpd_specBlocks ops (derivedConf ops a)
        a.std_est_method a.max_nb_of_iter a.verbose a.nb_of_reweights
        (firstPassPair ops a
          (ops.rwWeights (ops.mkMRw (weightsDual ops a) a.std_thr)),
        ops.mkMRw (weightsDual ops a) a.std_thr)
      simp only [countUpd, List.countP_append] at hblocks ⊢
      rw [hblocks]
      simp [List.countP_cons, Ev.isUpdate, countP_vprint_zero _ _ hvu, hrep]
      ring
  · -- the corrected hand-computed example
    intro hbeta hnorm hsig htau
    rw [hs] at hsig
    rw [ht] at htau
    rw [hct, ht]
    unfold certifTest
    rw [hbeta, hnorm, hsig, decide_eq_true_eq]
    have e1 : (1:ℚ)/2 * (1:ℚ)^2 = 1/2 := by norm_num
    have e2 : (2:ℚ)/2 = 1 := by norm_num
    have e3 : (1:ℚ)/(1 + 1/2) = 2/3 := by norm_num
    rw [e1, e2, e3]
    set t := derivedTau ops a with hdef
    constructor
    · intro hcert
      have h2 : (3:ℚ)/2 ≤ 1/t := by linarith
      have h3 : (3:ℚ)/2 * t ≤ (1/t) * t :=
        mul_le_mul_of_nonneg_right h2 (le_of_lt htau)
      have h4 : (1/t) * t = 1 := by field_simp
      linarith
    · intro hle
      have h2 : (3:ℚ)/2 * t ≤ 1 := by linarith
      have h3 : (3:ℚ)/2 ≤ 1/t := by
        rw [le_div_iff₀ htau]
        exact h2
      linarith

/-- Closed instance of the amended C1 at explicit step sizes
`sigma = 1/2`, `tau = 1`. -/
theorem C1_certificate_and_iteration_count_witness :
    runRec demoOps wArgsC1
        = (Except.ok (demoRes wArgsC1), demoTrace wArgsC1)
      ∧ ((demoRes wArgsC1).convergenceTest
          = decide ((1 : ℚ)/(demoRes wArgsC1).condatTau
            - (demoRes wArgsC1).condatSigma
              * (demoOps.l2norm demoOps.gradShape)^2 ≥ demoOps.specRad/2)
        ∧ countUpd (demoTrace wArgsC1)
          = wArgsC1.max_nb_of_iter
            * (1 + (demoRes wArgsC1).nbReweightsEffective)
        ∧ (demoOps.specRad = 2 → demoOps.l2norm demoOps.gradShape = 1 →
            (demoRes wArgsC1).condatSigma = 1/2 →
            0 < (demoRes wArgsC1).condatTau →
            ((demoRes wArgsC1).convergenceTest = true
              ↔ (demoRes wArgsC1).condatTau ≤ 1/(1 + 1/2)))) :=
  ⟨rfl, C1_certificate_and_iteration_count demoOps wArgsC1
    (demoRes wArgsC1) (demoTrace wArgsC1) rfl⟩

/-! ## Claim C5 -/

/-- C5: one and the same optimizer state is used across the initial
pass and all reweighting continuations: the final primal/dual pair is
the `nb_of_reweights`-fold composition of single reweighting passes
(ask the strategy for weights from the current solution, install them
in the dual proximity operator, then resume the iterator) applied to
the pair carried over from the first pass; the full trace consists of
the setup prints, the two initial allocations, the first-pass updates,
the per-pass blocks `reweight / print / install / updates` computed
from the carried state, and the final coefficient store; no allocation
event occurs in the reweighting blocks. -/
theorem C5_state_threading_and_pass_order {RW : Type} (ops : ExtOps RW)
    (a : Args) (r : RunResult) (tr : List Ev) (rw0 : RW)
    (hrun : runRec ops a = (Except.ok r, tr))
    (hrw : (a.std_est_method = some "primal"
        ∧ rw0 = ops.mkCwb r.initialWeights)
      ∨ (a.std_est_method = some "dual"
        ∧ rw0 = ops.mkMRw r.initialWeights a.std_thr)) :
    (r.xFinal, r.yFinal)
        = (specPassIter ops (derivedConf ops a) a.std_est_method
            a.max_nb_of_iter a.nb_of_reweights
            ((r.xAfterFirstPass, r.yAfterFirstPass), rw0)).1
      ∧ tr = vprint a.verbose ++ [Ev.alloc ops.gradShape]
          ++ [Ev.alloc ops.gradShape]
          ++ vprint a.verbose ++ vprint a.verbose
          ++ List.replicate a.max_nb_of_iter Ev.update
          ++ specBlocks ops (derivedConf ops a) a.std_est_method
              a.max_nb_of_iter a.verbose a.nb_of_reweights
              ((r.xAfterFirstPass, r.yAfterFirstPass), rw0)
          ++ vprint a.verbose ++ [Ev.setCoeff r.yFinal]
      ∧ (specBlocks ops (derivedConf ops a) a.std_est_method
          a.max_nb_of_iter a.verbose a.nb_of_reweights
          ((r.xAfterFirstPass, r.yAfterFirstPass), rw0)).countP Ev.isAlloc
        = 0 := by
  rcases hrw with ⟨hm, hrw0⟩ | ⟨hm, hrw0⟩
  · rw [runRec_primal ops a hm, finishRun_components, Prod.mk.injEq] at hrun
    obtain ⟨hok, htr⟩ := hrun
    injection hok with hr
    subst hr
    subst htr
    subst hrw0
    obtain ⟨hpair, -, htrace⟩ := rwLoop_spec ops (derivedConf ops a)
      a.std_est_method a.max_nb_of_iter a.verbose a.nb_of_reweights
      { pair := firstPassPair ops a
          (ops.rwWeights (ops.mkCwb (weightsPrimal ops a))),
        rw := some (ops.mkCwb (weightsPrimal ops a)),
        stdEst := some (stdEstPrimal ops a),
        trace := (vprint a.verbose ++ [Ev.alloc ops.gradShape])
          ++ [Ev.alloc ops.gradShape] ++ vprint a.verbose
          ++ vprint a.verbose
          ++ List.replicate a.max_nb_of_iter Ev.update }
      (ops.mkCwb (weightsPrimal ops a)) rfl
    refine ⟨hpair, ?_, ?_⟩
    · have htr2 : (loopOut ops a (some (stdEstPrimal ops a))
          (ops.rwWeights (ops.mkCwb (weightsPrimal ops a)))
          (some (ops.mkCwb (weightsPrimal ops a))) a.nb_of_reweights
          (vprint a.verbose ++ [Ev.alloc ops.gradShape])).trace
            = ((vprint a.verbose ++ [Ev.alloc ops.gradShape])
                ++ [Ev.alloc ops.gradShape] ++ vprint a.verbose
                ++ vprint a.verbose
                ++ List.replicate a.max_nb_of_iter Ev.update)
              ++ specBlocks ops (derivedConf ops a) a.std_est_method
                  a.max_nb_of_iter a.verbose a.nb_of_reweights
                  (firstPassPair ops a
                    (ops.rwWeights (ops.mkCwb (weightsPrimal ops a))),
                  ops.mkCwb (weightsPrimal ops a)) := htrace
      rw [htr2]
    · exact countAlloc_specBlocks ops (derivedConf ops a) a.std_est_method
        a.max_nb_of_iter a.verbose a.nb_of_reweights _
  · rw [runRec_dual ops a hm, finishRun_components, Prod.mk.injEq] at hrun
    obtain ⟨hok, htr⟩ := hrun
    injection hok with hr
    subst hr
    subst htr
    subst hrw0
    obtain ⟨hpair, -, htrace⟩ := rwLoop_spec ops (derivedConf ops a)
      a.std_est_method a.max_nb_of_iter a.verbose a.nb_of_reweights
      { pair := firstPassPair ops a
          (ops.rwWeights (ops.mkMRw (weightsDual ops a) a.std_thr)),
        rw := some (ops.mkMRw (weightsDual ops a) a.std_thr),
        stdEst := some (stdEstDual a),
        trace := (vprint a.verbose ++ [Ev.alloc ops.gradShape])
          ++ [Ev.alloc ops.gradShape] ++ vprint a.verbose
          ++ vprint a.verbose
          ++ List.replicate a.max_nb_of_iter Ev.update }
      (ops.mkMRw (weightsDual ops a) a.std_thr) rfl
    refine ⟨hpair, ?_, ?_⟩
    · have htr2 : (loopOut ops a (some (stdEstDual a))
          (ops.rwWeights (ops.mkMRw (weightsDual ops a) a.std_thr))
          (some (ops.mkMRw (weightsDual ops a) a.std_thr)) a.nb_of_reweights
          (vprint a.verbose ++ [Ev.alloc ops.gradShape])).trace
            = ((vprint a.verbose ++ [Ev.alloc ops.gradShape])
                ++ [Ev.alloc ops.gradShape] ++ vprint a.verbose
                ++ vprint a.verbose
                ++ List.replicate a.max_nb_of_iter Ev.update)
              ++ specBlocks ops (derivedConf ops a) a.std_est_method
                  a.max_nb_of_iter a.verbose a.nb_of_reweights
                  (firstPassPair ops a
                    (ops.rwWeights (ops.mkMRw (weightsDual ops a) a.std_thr)),
                  ops.mkMRw (weightsDual ops a) a.std_thr) := htrace
      rw [htr2]
    · exact countAlloc_specBlocks ops (derivedConf ops a) a.std_est_method
        a.max_nb_of_iter a.verbose a.nb_of_reweights _

/-- Closed instance of C5: dual mode, two reweights. -/
theorem C5_state_threading_and_pass_order_witness :
    runRec demoOps demoArgs
        = (Except.ok (demoRes demoArgs), demoTrace demoArgs)
      ∧ (((demoRes demoArgs).xFinal, (demoRes demoArgs).yFinal)
          = (specPassIter demoOps (derivedConf demoOps demoArgs)
              demoArgs.std_est_method demoArgs.max_nb_of_iter
              demoArgs.nb_of_reweights
              (((demoRes demoArgs).xAfterFirstPass,
                (demoRes demoArgs).yAfterFirstPass),
              demoOps.mkMRw (demoRes demoArgs).initialWeights
                demoArgs.std_thr)).1
        ∧ demoTrace demoArgs
          = vprint demoArgs.verbose ++ [Ev.alloc demoOps.gradShape]
            ++ [Ev.alloc demoOps.gradShape]
            ++ vprint demoArgs.verbose ++ vprint demoArgs.verbose
            ++ List.replicate demoArgs.max_nb_of_iter Ev.update
            ++ specBlocks demoOps (derivedConf demoOps demoArgs)
                demoArgs.std_est_method demoArgs.max_nb_of_iter
                demoArgs.verbose demoArgs.nb_of_reweights
                (((demoRes demoArgs).xAfterFirstPass,
                  (demoRes demoArgs).yAfterFirstPass),
                demoOps.mkMRw (demoRes demoArgs).initialWeights
                  demoArgs.std_thr)
            ++ vprint demoArgs.verbose
            ++ [Ev.setCoeff (demoRes demoArgs).yFinal]
        ∧ (specBlocks demoOps (derivedConf demoOps demoArgs)
            demoArgs.std_est_method demoArgs.max_nb_of_iter
            demoArgs.verbose demoArgs.nb_of_reweights
            (((demoRes demoArgs).xAfterFirstPass,
              (demoRes demoArgs).yAfterFirstPass),
            demoOps.mkMRw (demoRes demoArgs).initialWeights
              demoArgs.std_thr)).countP Ev.isAlloc = 0) :=
  ⟨rfl, C5_state_threading_and_pass_order demoOps demoArgs
    (demoRes demoArgs) (demoTrace demoArgs)
    (demoOps.mkMRw (demoRes demoArgs).initialWeights demoArgs.std_thr)
    rfl (Or.inr ⟨rfl, rfl⟩)⟩

/-! ## Claim C9 -/

theorem finishRun_fst_vindep {RW : Type} (ops : ExtOps RW)
    (se : Option ℚ) (m : Option String) (thr mu : ℚ) (ta sg : Option ℚ)
    (rf : ℚ) (nbr mni : ℕ) (ap : Bool) (tol : ℚ) (v1 v2 : ℤ)
    (se1 : Option ℚ) (w p : Arr) (rwo : Option RW) (nb : ℕ)
    (tr1 tr2 : List Ev) :
    (finishRun ops (Args.mk se m thr mu ta sg rf nbr mni ap tol v1)
      se1 w p rwo nb tr1).1
      = (finishRun ops (Args.mk se m thr mu ta sg rf nbr mni ap tol v2)
        se1 w p rwo nb tr2).1 := by
  rw [finishRun_components, finishRun_components]
  have hpair : (loopOut ops (Args.mk se m thr mu ta sg rf nbr mni ap tol v1)
      se1 p rwo nb tr1).pair
        = (loopOut ops (Args.mk se m thr mu ta sg rf nbr mni ap tol v2)
          se1 p rwo nb tr2).pair := by
    unfold loopOut
    exact rwLoop_vindep ops
      (derivedConf ops (Args.mk se m thr mu ta sg rf nbr mni ap tol v1))
      m mni v1 v2 nb _ _ rfl rfl
  rw [hpair]
  rfl

/-- C9: verbosity is a pure side channel: two calls identical except
for the `verbose` argument return the same outcome (primal estimate,
coefficients, every numeric field). -/
theorem C9_verbose_noninterference {RW : Type} (ops : ExtOps RW)
    (a : Args) (v1 v2 : ℤ) :
    (runRec ops { a with verbose := v1 }).1
      = (runRec ops { a with verbose := v2 }).1 := by
  obtain ⟨se, m, thr, mu, ta, sg, rf, nbr, mni, ap, tol, vb⟩ := a
  show (runRec ops (Args.mk se m thr mu ta sg rf nbr mni ap tol v1)).1
    = (runRec ops (Args.mk se m thr mu ta sg rf nbr mni ap tol v2)).1
  by_cases hv : stdEstMethodValid m = true
  · rcases valid_method_cases hv with hm | hm | hm
    · rw [runRec_manual ops (Args.mk se m thr mu ta sg rf nbr mni ap tol v1) hm,
        runRec_manual ops (Args.mk se m thr mu ta sg rf nbr mni ap tol v2) hm]
      exact finishRun_fst_vindep ops se m thr mu ta sg rf nbr mni ap tol
        v1 v2 _ _ _ none 0 _ _
    · rw [runRec_primal ops (Args.mk se m thr mu ta sg rf nbr mni ap tol v1) hm,
        runRec_primal ops (Args.mk se m thr mu ta sg rf nbr mni ap tol v2) hm]
      exact finishRun_fst_vindep ops se m thr mu ta sg rf nbr mni ap tol
        v1 v2 _ _ _ _ nbr _ _
    · rw [runRec_dual ops (Args.mk se m thr mu ta sg rf nbr mni ap tol v1) hm,
        runRec_dual ops (Args.mk se m thr mu ta sg rf nbr mni ap tol v2) hm]
      exact finishRun_fst_vindep ops se m thr mu ta sg rf nbr mni ap tol
        v1 v2 _ _ _ _ nbr _ _
  · rw [Bool.not_eq_true] at hv
    rw [runRec_invalid ops (Args.mk se m thr mu ta sg rf nbr mni ap tol v1) hv,
      runRec_invalid ops (Args.mk se m thr mu ta sg rf nbr mni ap tol v2) hv]

/-! ## Claim C8 -/

/-- C8 is false of the code: the Cost Monitor (`DualGapCost`) is
constructed with the literal tolerance `1e-4` (source line 177); with
`atol = 1/2` the monitor's tolerance is still `1e-4`, not the
caller-supplied `atol`. -/
theorem C8_cost_tolerance_hardcoded :
    (runRec demoOps wArgsAtol).1.map (fun r => r.costTolerance)
        = Except.ok (1/10000)
      ∧ wArgsAtol.atol = 1/2
      ∧ ((1 : ℚ)/10000 ≠ 1/2) :=
  ⟨rfl, rfl, by norm_num⟩

end PisapCondatVu
